import Mathlib

/-! Readium LCP server: content and publication controllers

Shallow embedding of the request handlers in `lcpserver/ctrl/content.go` and
`lutserver/ctrl/publication.go`.  A handler is a function from the request, the
collaborators behind `IServer` and the current store states to the response
that was written, the new store states and the ordered list of store calls it
made.  The stores themselves are not part of the two source files and are
parameters of the handlers.
-/

namespace Readium

/-! ## Go values shared by both controllers -/

/-- Go `error` values as the handlers tell them apart: the two sentinels they
compare against with `==`, and every other error. -/
inductive GoError where
  | gormErrRecordNotFound
  | storageErrNotFound
  | other (msg : String)
  deriving DecidableEq, Repr

/-- The `Error()` text of an error value. -/
def GoError.Error : GoError → String
  | .gormErrRecordNotFound => "record not found"
  | .storageErrNotFound => "not found"
  | .other msg => msg

/-- The record `store.Content`; `Length` is an `int64` that is only copied. -/
structure Content where
  Id : String
  EncryptionKey : List Nat
  Location : String
  Length : Int
  Sha256 : String
  deriving DecidableEq, Repr

/-- The zero value of `store.Content`. -/
def Content.zero : Content :=
  { Id := "", EncryptionKey := [], Location := "", Length := 0, Sha256 := "" }

/-- The payload `api.LcpPublication`; pointer fields are optional values. -/
structure LcpPublication where
  ContentKey : List Nat
  Output : String
  ContentDisposition : Option String
  Size : Option Int
  Checksum : Option String
  deriving DecidableEq, Repr

/-- The record `store.Publication`. -/
structure Publication where
  ID : Int
  Title : String
  Status : String
  MasterFilename : String
  deriving DecidableEq, Repr

/-- One call on a store, as recorded in the order the handler makes it. -/
inductive Call where
  | storageAdd (id : String) (file : List Nat)
  | storageGet (id : String)
  | contentGet (id : String)
  | contentAdd (c : Content)
  | contentUpdate (c : Content)
  | publicationList (perPage page : Int)
  | publicationGet (id : Int)
  | publicationUpdate (p : Publication)
  | publicationDelete (id : Int)
  deriving DecidableEq, Repr

/-- Whether a call goes to the blob store or to the content catalog. -/
def Call.isContentOrStorage : Call → Bool
  | .storageAdd _ _ => true
  | .storageGet _ => true
  | .contentGet _ => true
  | .contentAdd _ => true
  | .contentUpdate _ => true
  | _ => false

/-- Whether a call writes to a store of the licence server. -/
def Call.isWrite : Call → Bool
  | .storageAdd _ _ => true
  | .contentAdd _ => true
  | .contentUpdate _ => true
  | _ => false

/-- Whether a call writes to the content catalog. -/
def Call.isCatalogWrite : Call → Bool
  | .contentAdd _ => true
  | .contentUpdate _ => true
  | _ => false

def StatusOK : Nat := 200
def StatusCreated : Nat := 201
def StatusBadRequest : Nat := 400
def StatusNotFound : Nat := 404
def StatusInternalServerError : Nat := 500

/-- What a handler writes to the response body. -/
inductive Chunk where
  | problem (detail : String)
  | bytes (data : List Nat)
  | publications (pubs : List Publication)
  | publication (pub : Publication)
  deriving DecidableEq, Repr

/-- The `http.ResponseWriter`: the header map, the status line once it has been
written, and the body written so far. -/
structure ResponseWriter where
  header : List (String × String)
  status : Option Nat
  body : List Chunk
  deriving DecidableEq, Repr

/-- A fresh response. -/
def ResponseWriter.new : ResponseWriter :=
  { header := [], status := none, body := [] }

/-- `resp.WriteHeader(code)`: the first call fixes the status, later calls are
superfluous and ignored. -/
def ResponseWriter.WriteHeader (w : ResponseWriter) (code : Nat) : ResponseWriter :=
  match w.status with
  | none => { w with status := some code }
  | some _ => w

/-- `resp.Write(data)`: writes the status 200 first when none was written. -/
def ResponseWriter.Write (w : ResponseWriter) (data : Chunk) : ResponseWriter :=
  let w1 := w.WriteHeader StatusOK
  { w1 with body := w1.body ++ [data] }

/-- `resp.Header().Set(key, value)`: replaces whatever the key held. -/
def ResponseWriter.HeaderSet (w : ResponseWriter) (key value : String) : ResponseWriter :=
  { w with header := w.header.filter (fun e => e.1 != key) ++ [(key, value)] }

/-- `resp.Header().Get(key)`. -/
def ResponseWriter.HeaderGet (w : ResponseWriter) (key : String) : Option String :=
  (w.header.find? (fun e => e.1 == key)).map (fun e => e.2)

namespace api

/-- Modelled from the spec: `api.Error` is declared outside the two source
files; by §7 a failure returns a single error payload with a detail string and
a status classification, so it writes the status and then the problem. -/
def Error (resp : ResponseWriter) (detail : String) (status : Nat) : ResponseWriter :=
  (resp.WriteHeader status).Write (Chunk.problem detail)

/-- Modelled from the spec: the constant `api.HdrContentType`, the name of the
content-type header of §6. -/
def HdrContentType : String := "Content-Type"

/-- Modelled from the spec: the constant `api.HdrContentDisposition`, the name
of the `Content-Disposition` header of §6. -/
def HdrContentDisposition : String := "Content-Disposition"

/-- Modelled from the spec: the constant `api.ContentTypeJson`, the content
type of the JSON answers of §6. -/
def ContentTypeJson : String := "application/json"

end api

namespace epub

/-- Modelled from the spec: the constant `epub.ContentTypeEpub`, the fixed
content type of the artifact kind of §6. -/
def ContentTypeEpub : String := "application/epub+zip"

end epub

/-! ## `lcpserver/ctrl/content.go` -/

namespace lcpserver

/-- The item `Storage().Get` hands back; `Contents()` opens it or fails. -/
structure Item where
  Contents : Except String (List Nat)
  deriving Repr

/-- The part of `IServer` the content handlers use, over a blob store state
`β` and a catalog state `γ`.  `ContentGet` returns the record pointer together
with the error: `AddContent` writes through the pointer before it looks at the
error, so the store hands back an allocated record in every case. -/
structure IServer (β γ : Type) where
  StorageAdd : β → String → List Nat → β × Option GoError
  StorageGet : β → String → Except GoError Item
  ContentGet : γ → String → Content × Option GoError
  ContentAdd : γ → Content → γ × Option GoError
  ContentUpdate : γ → Content → γ × Option GoError

/-- The request of `AddContent`: the outcome of decoding the JSON body and the
url variable `content_id`. -/
structure AddContentRequest where
  body : Except String LcpPublication
  content_id : String

/-- What a content handler leaves behind. -/
structure Outcome (β γ : Type) where
  resp : ResponseWriter
  trace : List Call
  blobs : β
  catalog : γ

/-- `AddContent` of content.go; `fs` is `os.Open` on the local file system. -/
def AddContent {β γ : Type} (server : IServer β γ) (fs : String → Except String (List Nat))
    (req : AddContentRequest) (blobs : β) (catalog : γ) : Outcome β γ :=
  let resp := ResponseWriter.new
  -- parse the json payload
  match req.body with
  | .error err =>
    { resp := api.Error resp err StatusBadRequest, trace := [], blobs := blobs, catalog := catalog }
  | .ok publication =>
    -- get the content ID in the url
    let contentID := req.content_id
    if contentID = "" then
      { resp := api.Error resp "The content id must be set in the url" StatusBadRequest,
        trace := [], blobs := blobs, catalog := catalog }
    else
      -- open the encrypted file from the path given in the json payload
      match fs publication.Output with
      | .error err =>
        { resp := api.Error resp err StatusBadRequest, trace := [], blobs := blobs,
          catalog := catalog }
      | .ok file =>
        -- add the file to the storage, named from contentID
        match server.StorageAdd blobs contentID file with
        | (blobs1, some err) =>
          { resp := api.Error resp err.Error StatusBadRequest,
            trace := [Call.storageAdd contentID file], blobs := blobs1, catalog := catalog }
        | (blobs1, none) =>
          -- insert row in database if key does not exist
          match server.ContentGet catalog contentID with
          | (content, err) =>
            let content := { content with EncryptionKey := publication.ContentKey }
            -- default values
            let content := { content with Location := "" }
            let content := { content with Length := -1 }
            let content := { content with Sha256 := "" }
            let content :=
              match publication.ContentDisposition with
              | some d => { content with Location := d }
              | none => content
            let content :=
              match publication.Size with
              | some n => { content with Length := n }
              | none => content
            let content :=
              match publication.Checksum with
              | some s => { content with Sha256 := s }
              | none => content
            let code := StatusCreated
            let trace0 := [Call.storageAdd contentID file, Call.contentGet contentID]
            if err = some GoError.gormErrRecordNotFound then
              -- insert into database
              let content := { content with Id := contentID }
              match server.ContentAdd catalog content with
              | (catalog1, some err1) =>
                { resp := api.Error resp err1.Error StatusInternalServerError,
                  trace := trace0 ++ [Call.contentAdd content], blobs := blobs1,
                  catalog := catalog1 }
              | (catalog1, none) =>
                { resp := resp.WriteHeader code, trace := trace0 ++ [Call.contentAdd content],
                  blobs := blobs1, catalog := catalog1 }
            else
              -- update encryption key for content.Id = publication.ContentId
              let code := StatusOK
              match server.ContentUpdate catalog content with
              | (catalog1, some err1) =>
                { resp := api.Error resp err1.Error StatusInternalServerError,
                  trace := trace0 ++ [Call.contentUpdate content], blobs := blobs1,
                  catalog := catalog1 }
              | (catalog1, none) =>
                { resp := resp.WriteHeader code, trace := trace0 ++ [Call.contentUpdate content],
                  blobs := blobs1, catalog := catalog1 }

/-- `GetContent` of content.go. -/
def GetContent {β γ : Type} (server : IServer β γ) (content_id : String)
    (blobs : β) (catalog : γ) : Outcome β γ :=
  let resp := ResponseWriter.new
  -- get the content id from the calling url
  let contentID := content_id
  match server.ContentGet catalog contentID with
  | (_, some err) =>
    -- item probably not found
    if err = GoError.gormErrRecordNotFound then
      { resp := api.Error resp err.Error StatusNotFound, trace := [Call.contentGet contentID],
        blobs := blobs, catalog := catalog }
    else
      { resp := api.Error resp err.Error StatusInternalServerError,
        trace := [Call.contentGet contentID], blobs := blobs, catalog := catalog }
  | (content, none) =>
    let trace1 := [Call.contentGet contentID, Call.storageGet contentID]
    -- check the existence of the file
    match server.StorageGet blobs contentID with
    | .error err =>
      -- item probably not found
      if err = GoError.storageErrNotFound then
        { resp := api.Error resp err.Error StatusNotFound, trace := trace1, blobs := blobs,
          catalog := catalog }
      else
        { resp := api.Error resp err.Error StatusInternalServerError, trace := trace1,
          blobs := blobs, catalog := catalog }
    | .ok item =>
      -- opens the file
      match item.Contents with
      | .error err =>
        { resp := api.Error resp err StatusBadRequest, trace := trace1, blobs := blobs,
          catalog := catalog }
      | .ok contentReadCloser =>
        -- set headers
        let resp := resp.HeaderSet api.HdrContentDisposition
          ("attachment; filename=" ++ content.Location)
        let resp := resp.HeaderSet api.HdrContentType epub.ContentTypeEpub
        let resp := resp.HeaderSet "Content-Length" (toString content.Length)
        -- returns the content of the file to the caller
        { resp := resp.Write (Chunk.bytes contentReadCloser), trace := trace1, blobs := blobs,
          catalog := catalog }

end lcpserver

/-! ## Go library functions the publication handlers call -/

namespace strconv

/-- The value of a decimal digit. -/
def digitVal (c : Char) : Option Nat :=
  if 48 ≤ c.toNat ∧ c.toNat ≤ 57 then some (c.toNat - 48) else none

/-- The two errors of the digit loop: a character that is no digit, and a
value past the range. -/
inductive NumErr where
  | badDigit
  | range
  deriving DecidableEq, Repr

/-- The digit loop of `strconv.ParseUint(s, 10, bitSize)`, with `maxVal` the
largest unsigned value of `bitSize` bits.  It reads the characters in order and
stops at the first one that ends the parse: a character that is no digit gives
the value 0 with a syntax error; a digit that takes the value past 64 bits or
past `maxVal` gives `maxVal` with a range error, whatever follows it. -/
def parseDigits (maxVal : Nat) : List Char → Nat → Nat × Option NumErr
  | [], n => (n, none)
  | c :: cs, n =>
    match digitVal c with
    | none => (0, some NumErr.badDigit)
    | some d =>
      if n ≥ (2 ^ 64 - 1) / 10 + 1 then
        -- n*base overflows
        (maxVal, some NumErr.range)
      else
        let n1 := n * 10 + d
        if n1 ≥ 2 ^ 64 ∨ n1 > maxVal then
          -- n+d overflows
          (maxVal, some NumErr.range)
        else parseDigits maxVal cs n1

/-- `strconv.ParseInt(s, 10, bitSize)`, the value and the error it returns: an
optional sign, then at least one decimal digit.  A syntax error comes with the
value 0, a value outside the signed `bitSize`-bit range with the nearest bound
of the range. -/
def ParseInt (s : String) (bitSize : Nat) : Int × Option String :=
  match s.toList with
  | [] => (0, some "invalid syntax")
  | c :: cs =>
    let neg := c == '-'
    let ds := if c == '+' || c == '-' then cs else c :: cs
    match ds with
    | [] => (0, some "invalid syntax")
    | _ =>
      match parseDigits (2 ^ bitSize - 1) ds 0 with
      | (_, some NumErr.badDigit) => (0, some "invalid syntax")
      | (un, _) =>
        let cutoff : Nat := 2 ^ (bitSize - 1)
        if !neg && un ≥ cutoff then ((cutoff : Int) - 1, some "value out of range")
        else if neg && un > cutoff then (-(cutoff : Int), some "value out of range")
        else (if neg then -(un : Int) else (un : Int), none)

/-- `strconv.Atoi(s)`, on a platform whose `int` has 64 bits. -/
def Atoi (s : String) : Int × Option String := ParseInt s 64

/-- `strconv.Itoa(i)`. -/
def Itoa (i : Int) : String := toString i

end strconv

/-! ## `lutserver/ctrl/publication.go` -/

namespace lutserver

/-- The part of `IServer` the publication handlers use, over a publication
store state `π`. -/
structure IServer (π : Type) where
  PublicationList : π → Int → Int → Except GoError (List Publication)
  PublicationGet : π → Int → Except GoError Publication
  PublicationUpdate : π → Publication → π × Option GoError
  PublicationDelete : π → Int → π × Option GoError

/-- What a publication handler leaves behind. -/
structure Outcome (π : Type) where
  resp : ResponseWriter
  trace : List Call
  store : π

/-- `GetPublications` of publication.go; `form` is `req.FormValue` and `enc`
tells whether the JSON encoder fails on a value. -/
def GetPublications {π : Type} (server : IServer π) (enc : Chunk → Option String)
    (form : String → String) (store : π) : Outcome π :=
  let resp := ResponseWriter.new
  let parsedPage : Int × Option String :=
    if form "page" ≠ "" then strconv.ParseInt (form "page") 32 else (1, none)
  match parsedPage with
  | (_, some err) => { resp := api.Error resp err StatusBadRequest, trace := [], store := store }
  | (page, none) =>
    let parsedPerPage : Int × Option String :=
      if form "per_page" ≠ "" then strconv.ParseInt (form "per_page") 32 else (30, none)
    match parsedPerPage with
    | (_, some err) =>
      { resp := api.Error resp err StatusBadRequest, trace := [], store := store }
    | (perPage, none) =>
      -- pagenum starting at 0 in code, but user interface starting at 1
      let page := if page > 0 then page - 1 else page
      if page < 0 then
        { resp := api.Error resp "page must be positive integer" StatusBadRequest, trace := [],
          store := store }
      else
        match server.PublicationList store perPage page with
        | .error err =>
          { resp := api.Error resp err.Error StatusInternalServerError,
            trace := [Call.publicationList perPage page], store := store }
        | .ok pubs =>
          let resp :=
            if pubs.length > 0 then
              let nextPage := strconv.Itoa (page + 1)
              resp.HeaderSet "Link"
                ("</publications/?page=" ++ nextPage ++ ">; rel=\"next\"; title=\"next\"")
            else resp
          let resp :=
            if page > 1 then
              let previousPage := strconv.Itoa (page - 1)
              resp.HeaderSet "Link"
                ("</publications/?page=" ++ previousPage ++
                  ">; rel=\"previous\"; title=\"previous\"")
            else resp
          let resp := resp.HeaderSet api.HdrContentType api.ContentTypeJson
          match enc (Chunk.publications pubs) with
          | some err =>
            { resp := api.Error resp err StatusBadRequest,
              trace := [Call.publicationList perPage page], store := store }
          | none =>
            { resp := resp.Write (Chunk.publications pubs),
              trace := [Call.publicationList perPage page], store := store }

/-- `UpdatePublication` of publication.go; `vars_id` is the url variable `id`
and `payload` the outcome of `api.ReadPublicationPayload`. -/
def UpdatePublication {π : Type} (server : IServer π) (vars_id : String)
    (payload : Except String Publication) (store : π) : Outcome π :=
  let resp := ResponseWriter.new
  match strconv.Atoi vars_id with
  | (_, some _) =>
    -- id is not a number
    { resp := api.Error resp "Plublication ID must be an integer" StatusBadRequest, trace := [],
      store := store }
  | (id, none) =>
    -- ID is a number, check publication (json)
    match payload with
    | .error err => { resp := api.Error resp err StatusBadRequest, trace := [], store := store }
    | .ok pub =>
      -- publication ok, id is a number, search publication to update
      match server.PublicationGet store id with
      | .error err =>
        if err = GoError.gormErrRecordNotFound then
          { resp := api.Error resp err.Error StatusNotFound, trace := [Call.publicationGet id],
            store := store }
        else
          { resp := api.Error resp err.Error StatusInternalServerError,
            trace := [Call.publicationGet id], store := store }
      | .ok foundPub =>
        -- publication is found!
        let updated : Publication :=
          { ID := foundPub.ID, Title := pub.Title, Status := foundPub.Status,
            MasterFilename := "" }
        match server.PublicationUpdate store updated with
        | (store1, some err) =>
          -- update failed!
          let resp := api.Error resp err.Error StatusInternalServerError
          { resp := resp.WriteHeader StatusOK,
            trace := [Call.publicationGet id, Call.publicationUpdate updated], store := store1 }
        | (store1, none) =>
          -- database update ok
          { resp := resp.WriteHeader StatusOK,
            trace := [Call.publicationGet id, Call.publicationUpdate updated], store := store1 }

/-- `GetPublication` of publication.go; `vars_id` is the url variable `id`.
After the answer to an id that is not a number the handler does not return: it
goes on with the value `Atoi` handed back. -/
def GetPublication {π : Type} (server : IServer π) (enc : Chunk → Option String)
    (vars_id : String) (store : π) : Outcome π :=
  let resp := ResponseWriter.new
  match strconv.Atoi vars_id with
  | (id, err) =>
    let resp :=
      match err with
      | some _ =>
        -- id is not a number
        api.Error resp "The publication id must be an integer" StatusBadRequest
      | none => resp
    match server.PublicationGet store id with
    | .ok pub =>
      match enc (Chunk.publication pub) with
      | none =>
        -- send json of correctly encoded user info
        let resp := resp.Write (Chunk.publication pub)
        let resp := resp.HeaderSet api.HdrContentType api.ContentTypeJson
        { resp := resp.WriteHeader StatusOK, trace := [Call.publicationGet id], store := store }
      | some e =>
        { resp := api.Error resp e StatusInternalServerError, trace := [Call.publicationGet id],
          store := store }
    | .error e =>
      if e = GoError.gormErrRecordNotFound then
        { resp := api.Error resp e.Error StatusNotFound, trace := [Call.publicationGet id],
          store := store }
      else
        { resp := api.Error resp e.Error StatusInternalServerError,
          trace := [Call.publicationGet id], store := store }

/-- What `DeletePublication` reads from the configuration and asks of the
operating system: the master repository, `path.Join`, `os.Stat` and
`os.Remove`, the last two with the error they return. -/
structure Env where
  MasterRepository : String
  pathJoin : String → String → String
  stat : String → Option String
  remove : String → Option String

/-- What `DeletePublication` leaves behind: the outcome on the store and the
files it removed. -/
structure DeleteOutcome (π : Type) where
  resp : ResponseWriter
  trace : List Call
  store : π
  removed : List String

/-- `DeletePublication` of publication.go; `vars_id` is the url variable
`id`. -/
def DeletePublication {π : Type} (server : IServer π) (env : Env) (vars_id : String)
    (store : π) : DeleteOutcome π :=
  let resp := ResponseWriter.new
  match strconv.ParseInt vars_id 64 with
  | (_, some err) =>
    { resp := api.Error resp err StatusBadRequest, trace := [], store := store, removed := [] }
  | (id, none) =>
    match server.PublicationGet store id with
    | .error err =>
      { resp := api.Error resp err.Error StatusNotFound, trace := [Call.publicationGet id],
        store := store, removed := [] }
    | .ok publication =>
      -- delete the epub file from the master repository
      let inputPath := env.pathJoin env.MasterRepository (publication.Title ++ ".epub")
      let removal : Option String × List String :=
        match env.stat inputPath with
        | none => (env.remove inputPath, [inputPath])
        | some _ => (none, [])
      match removal with
      | (some err, _) =>
        { resp := api.Error resp err StatusNotFound, trace := [Call.publicationGet id],
          store := store, removed := [] }
      | (none, removed) =>
        match server.PublicationDelete store id with
        | (store1, some err) =>
          { resp := api.Error resp err.Error StatusBadRequest,
            trace := [Call.publicationGet id, Call.publicationDelete id], store := store1,
            removed := removed }
        | (store1, none) =>
          -- publication deleted from db
          { resp := resp.WriteHeader StatusOK,
            trace := [Call.publicationGet id, Call.publicationDelete id], store := store1,
            removed := removed }

end lutserver

/-! ## Reference stores

The stores behind `IServer` are not among the source files.  The ones below
follow the contracts of the specification and serve as concrete instances of
the handler parameters. -/

namespace model

/-- Modelled from the spec: the BlobStore of §4.1 as a map from artifact id to
bytes, kept as one entry per id. -/
abbrev BlobStore := List (String × List Nat)

/-- Modelled from the spec: `Put` of §4.1, which writes the bytes under the id
"overwriting any existing blob with that id". -/
def blobAdd (b : BlobStore) (id : String) (file : List Nat) : BlobStore × Option GoError :=
  (b.filter (fun e => e.1 != id) ++ [(id, file)], none)

/-- The bytes held under an id, if any. -/
def blobLookup (b : BlobStore) (id : String) : Option (List Nat) :=
  (b.find? (fun e => e.1 == id)).map (fun e => e.2)

/-- Modelled from the spec: `Get` of §4.1, `NotFound` "when no blob is
registered under id". -/
def blobGet (b : BlobStore) (id : String) : Except GoError lcpserver.Item :=
  match blobLookup b id with
  | some data => .ok { Contents := .ok data }
  | none => .error GoError.storageErrNotFound

/-- Modelled from the spec: the ContentCatalog of §4.2, the rows of the
relational store in insertion order. -/
abbrev ContentCatalog := List Content

/-- The rows stored under an id. -/
def rowsOf (rows : ContentCatalog) (id : String) : List Content :=
  rows.filter (fun r => r.Id == id)

/-- Modelled from the spec: `Get(id) -> ContentRecord | NotFoundError` of
§4.2; on `NotFound` the record handed back is the zero record. -/
def catalogGet (rows : ContentCatalog) (id : String) : Content × Option GoError :=
  match rows.find? (fun r => r.Id == id) with
  | some c => (c, none)
  | none => (Content.zero, some GoError.gormErrRecordNotFound)

/-- Modelled from the spec: `Add(record)` of §4.2, which "fails if a record
with that id already exists". -/
def catalogAdd (rows : ContentCatalog) (c : Content) : ContentCatalog × Option GoError :=
  if rows.any (fun r => r.Id == c.Id) then (rows, some (GoError.other "record already exists"))
  else (rows ++ [c], none)

/-- Modelled from the spec: `Update(record)` of §4.2, which "fails if no
record with that id exists" and otherwise replaces the row in place. -/
def catalogUpdate (rows : ContentCatalog) (c : Content) : ContentCatalog × Option GoError :=
  if rows.any (fun r => r.Id == c.Id) then
    (rows.map (fun r => if r.Id == c.Id then c else r), none)
  else (rows, some (GoError.other "no record with that id"))

/-- The licence server over the reference stores. -/
def server : lcpserver.IServer BlobStore ContentCatalog :=
  { StorageAdd := blobAdd
    StorageGet := blobGet
    ContentGet := catalogGet
    ContentAdd := catalogAdd
    ContentUpdate := catalogUpdate }

/-- The reference server with a catalog whose lookups fail for a reason other
than a missing record. -/
def serverLookupDown : lcpserver.IServer BlobStore ContentCatalog :=
  { server with
    ContentGet := fun _ _ => (Content.zero, some (GoError.other "database is locked")) }

/-- A file system holding one encrypted file. -/
def oneFile (path : String) (data : List Nat) : String → Except String (List Nat) :=
  fun p => if p = path then .ok data else .error "no such file or directory"

/-- Modelled from the spec: the PublicationCatalog of §2, the rows in id
order. -/
abbrev PublicationCatalog := List Publication

/-- Modelled from the spec: the paginated list of §2 and §6 with 0-based page
index: the page holds at most `perPage` rows, after `page * perPage` rows. -/
def publicationList (rows : PublicationCatalog) (perPage page : Int) :
    Except GoError (List Publication) :=
  .ok ((rows.drop (page * perPage).toNat).take perPage.toNat)

/-- Modelled from the spec: get-by-id of §2. -/
def publicationGet (rows : PublicationCatalog) (id : Int) : Except GoError Publication :=
  match rows.find? (fun r => r.ID == id) with
  | some p => .ok p
  | none => .error GoError.gormErrRecordNotFound

/-- Modelled from the spec: the update of §2, in place on the row of that id. -/
def publicationUpdate (rows : PublicationCatalog) (p : Publication) :
    PublicationCatalog × Option GoError :=
  (rows.map (fun r => if r.ID == p.ID then p else r), none)

/-- Modelled from the spec: the delete of §2. -/
def publicationDelete (rows : PublicationCatalog) (id : Int) :
    PublicationCatalog × Option GoError :=
  (rows.filter (fun r => r.ID != id), none)

/-- The frontend server over the reference publication store. -/
def lutServer : lutserver.IServer PublicationCatalog :=
  { PublicationList := publicationList
    PublicationGet := publicationGet
    PublicationUpdate := publicationUpdate
    PublicationDelete := publicationDelete }

/-- A JSON encoder that never fails. -/
def encOk : Chunk → Option String := fun _ => none

/-- Three publications. -/
def threePubs : PublicationCatalog :=
  [ { ID := 1, Title := "A", Status := "ok", MasterFilename := "a.epub" },
    { ID := 2, Title := "B", Status := "ok", MasterFilename := "b.epub" },
    { ID := 3, Title := "C", Status := "ok", MasterFilename := "c.epub" } ]

/-- The query string `page=<page>&per_page=<perPage>`. -/
def query (page perPage : String) : String → String :=
  fun k => if k = "page" then page else if k = "per_page" then perPage else ""

end model

/-- Whether `pat` occurs in `s` as a contiguous run of characters. -/
def containsSub (pat s : List Char) : Bool :=
  s.tails.any (fun t => pat.isPrefixOf t)

/-- Whether the header map holds a `Link` entry with the given `rel`. -/
def hasLinkRel (w : ResponseWriter) (rel : String) : Bool :=
  w.header.any (fun e => e.1 == "Link" &&
    containsSub ("rel=\"" ++ rel ++ "\"").toList e.2.toList)

/-- The record `AddContent` holds when it reaches the catalog write, as a
function of the payload and of the id of the record it started from: the four
fields assigned on lines 118 to 133 of content.go. -/
def recordOf (publication : LcpPublication) (id : String) : Content :=
  { Id := id
    EncryptionKey := publication.ContentKey
    Location := publication.ContentDisposition.getD ""
    Length := publication.Size.getD (-1)
    Sha256 := publication.Checksum.getD "" }

/-! ## Concrete requests -/

namespace model

/-- A payload with a disposition and a size but no checksum. -/
def pubA : LcpPublication :=
  { ContentKey := [1, 2], Output := "/tmp/a", ContentDisposition := some "a.epub",
    Size := some 3, Checksum := none }

/-- A payload with a checksum only. -/
def pubB : LcpPublication :=
  { ContentKey := [5], Output := "/tmp/b", ContentDisposition := none, Size := none,
    Checksum := some "beef" }

/-- The request that registers `pubA` under the id `abc`. -/
def reqA : lcpserver.AddContentRequest := { body := .ok pubA, content_id := "abc" }

/-- The reference server with a blob store that refuses every write. -/
def serverBlobDown : lcpserver.IServer BlobStore ContentCatalog :=
  { server with StorageAdd := fun b _ _ => (b, some (GoError.other "disk full")) }

/-- A catalog holding one record, for the id `abc`. -/
def catalogAbc : ContentCatalog :=
  [{ Id := "abc", EncryptionKey := [9], Location := "old.epub", Length := 10, Sha256 := "00" }]

end model

/-- Two registrations under one id, one after the other, on the reference
stores: `AddContent(id, A)` and then `AddContent(id, B)` on what the first call
left.  The result holds both outcomes. -/
def registerTwice (id : String) (A B : LcpPublication)
    (fsA fsB : String → Except String (List Nat)) (blobs : model.BlobStore)
    (catalog : model.ContentCatalog) :
    lcpserver.Outcome model.BlobStore model.ContentCatalog ×
      lcpserver.Outcome model.BlobStore model.ContentCatalog :=
  let out1 := lcpserver.AddContent model.server fsA { body := .ok A, content_id := id }
    blobs catalog
  let out2 := lcpserver.AddContent model.server fsB { body := .ok B, content_id := id }
    out1.blobs out1.catalog
  (out1, out2)

/-! ## Theorems on `AddContent` and `GetContent` -/

open lcpserver in
/-- The insert path of `AddContent`, once the blob is written and the lookup
has answered NotFound. -/
theorem AddContent_insert_path {β γ : Type} (server : IServer β γ)
    (fs : String → Except String (List Nat)) (publication : LcpPublication)
    (contentID : String) (file : List Nat) (blobs blobs1 : β) (catalog : γ) (content : Content)
    (hid : contentID ≠ "") (hopen : fs publication.Output = .ok file)
    (hsa : server.StorageAdd blobs contentID file = (blobs1, none))
    (hget : server.ContentGet catalog contentID = (content, some GoError.gormErrRecordNotFound)) :
    AddContent server fs { body := .ok publication, content_id := contentID } blobs catalog =
      { resp :=
          match (server.ContentAdd catalog (recordOf publication contentID)).2 with
          | some err1 => api.Error ResponseWriter.new err1.Error StatusInternalServerError
          | none => ResponseWriter.new.WriteHeader StatusCreated
        trace := [Call.storageAdd contentID file, Call.contentGet contentID,
          Call.contentAdd (recordOf publication contentID)]
        blobs := blobs1
        catalog := (server.ContentAdd catalog (recordOf publication contentID)).1 } := by
  rcases publication with ⟨key, output, _ | d, _ | n, _ | c⟩ <;>
    simp only [AddContent, hid, hopen, hsa, hget, if_true, if_false, recordOf, Option.getD] <;>
    split <;> rename_i h <;> simp [h]

open lcpserver in
/-- The update path of `AddContent`, once the blob is written and the lookup
has answered anything but NotFound. -/
theorem AddContent_update_path {β γ : Type} (server : IServer β γ)
    (fs : String → Except String (List Nat)) (publication : LcpPublication)
    (contentID : String) (file : List Nat) (blobs blobs1 : β) (catalog : γ) (content : Content)
    (err : Option GoError)
    (hid : contentID ≠ "") (hopen : fs publication.Output = .ok file)
    (hsa : server.StorageAdd blobs contentID file = (blobs1, none))
    (hget : server.ContentGet catalog contentID = (content, err))
    (herr : err ≠ some GoError.gormErrRecordNotFound) :
    AddContent server fs { body := .ok publication, content_id := contentID } blobs catalog =
      { resp :=
          match (server.ContentUpdate catalog (recordOf publication content.Id)).2 with
          | some err1 => api.Error ResponseWriter.new err1.Error StatusInternalServerError
          | none => ResponseWriter.new.WriteHeader StatusOK
        trace := [Call.storageAdd contentID file, Call.contentGet contentID,
          Call.contentUpdate (recordOf publication content.Id)]
        blobs := blobs1
        catalog := (server.ContentUpdate catalog (recordOf publication content.Id)).1 } := by
  rcases publication with ⟨key, output, _ | d, _ | n, _ | c⟩ <;>
    simp only [AddContent, hid, hopen, hsa, hget, herr, if_false, recordOf, Option.getD] <;>
    split <;> rename_i h <;> simp [h]

open lcpserver in
/-- C1: a request with a decoded payload, a non-empty content id, an output
file that opens and a blob write that succeeds makes exactly one catalog write,
after the blob write and the lookup.  When the lookup answers NotFound the
write is `Add` (not `Update`) of a record whose id is the url content id, and
the status is 201 when that `Add` succeeds; when the lookup succeeds the write
is `Update` (not `Add`), and the status is 200 when that `Update` succeeds.  On
both paths the catalog left behind is the one the write returned and the blob
store the one the blob write returned. -/
theorem AddContent_created_or_updated {β γ : Type} (server : IServer β γ)
    (fs : String → Except String (List Nat)) (publication : LcpPublication)
    (contentID : String) (file : List Nat) (blobs : β) (catalog : γ)
    (hid : contentID ≠ "") (hopen : fs publication.Output = .ok file)
    (hblob : (server.StorageAdd blobs contentID file).2 = none) :
    ((server.ContentGet catalog contentID).2 = some GoError.gormErrRecordNotFound →
      ∃ c : Content, c.Id = contentID ∧
        (AddContent server fs { body := .ok publication, content_id := contentID }
          blobs catalog).trace =
          [Call.storageAdd contentID file, Call.contentGet contentID, Call.contentAdd c] ∧
        (AddContent server fs { body := .ok publication, content_id := contentID }
          blobs catalog).catalog = (server.ContentAdd catalog c).1 ∧
        (AddContent server fs { body := .ok publication, content_id := contentID }
          blobs catalog).blobs = (server.StorageAdd blobs contentID file).1 ∧
        ((server.ContentAdd catalog c).2 = none →
          (AddContent server fs { body := .ok publication, content_id := contentID }
            blobs catalog).resp.status = some StatusCreated)) ∧
    ((server.ContentGet catalog contentID).2 = none →
      ∃ c : Content,
        (AddContent server fs { body := .ok publication, content_id := contentID }
          blobs catalog).trace =
          [Call.storageAdd contentID file, Call.contentGet contentID, Call.contentUpdate c] ∧
        (AddContent server fs { body := .ok publication, content_id := contentID }
          blobs catalog).catalog = (server.ContentUpdate catalog c).1 ∧
        (AddContent server fs { body := .ok publication, content_id := contentID }
          blobs catalog).blobs = (server.StorageAdd blobs contentID file).1 ∧
        ((server.ContentUpdate catalog c).2 = none →
          (AddContent server fs { body := .ok publication, content_id := contentID }
            blobs catalog).resp.status = some StatusOK)) := by
  rcases hsa : server.StorageAdd blobs contentID file with ⟨blobs1, e⟩
  rw [hsa] at hblob
  simp only at hblob
  subst hblob
  rcases hget : server.ContentGet catalog contentID with ⟨content, err⟩
  refine ⟨?_, ?_⟩
  · intro herr
    simp only at herr
    subst herr
    rw [AddContent_insert_path server fs publication contentID file blobs blobs1 catalog
      content hid hopen hsa hget]
    refine ⟨recordOf publication contentID, rfl, rfl, rfl, rfl, ?_⟩
    intro hadd
    simp only [hadd, ResponseWriter.WriteHeader, ResponseWriter.new]
  · intro herr
    simp only at herr
    subst herr
    rw [AddContent_update_path server fs publication contentID file blobs blobs1 catalog
      content none hid hopen hsa hget (by simp)]
    refine ⟨recordOf publication content.Id, rfl, rfl, rfl, ?_⟩
    intro hupd
    simp only [hupd, ResponseWriter.WriteHeader, ResponseWriter.new]

/-- Witness for C1 on the reference stores: `pubA` registered under the fresh
id `abc` is answered 201. -/
theorem AddContent_created_or_updated_witness :
    ("abc" : String) ≠ "" ∧
    model.oneFile "/tmp/a" [7, 8, 9] model.pubA.Output = .ok [7, 8, 9] ∧
    (model.server.StorageAdd [] "abc" [7, 8, 9]).2 = none ∧
    (model.server.ContentGet [] "abc").2 = some GoError.gormErrRecordNotFound ∧
    (lcpserver.AddContent model.server (model.oneFile "/tmp/a" [7, 8, 9])
      { body := .ok model.pubA, content_id := "abc" } [] []).resp.status = some StatusCreated := by
  obtain ⟨c, _, _, _, _, hs⟩ :=
    (AddContent_created_or_updated model.server (model.oneFile "/tmp/a" [7, 8, 9]) model.pubA
      "abc" [7, 8, 9] [] [] (by decide) rfl rfl).1 rfl
  exact ⟨by decide, rfl, rfl, rfl, hs rfl⟩

/-- C2, refuted as stated: on a catalog whose lookup fails with an error other
than NotFound, the handler has already written the blob and goes on to call
the catalog `Update`. -/
theorem AddContent_lookup_error_writes :
    (model.serverLookupDown.ContentGet [] "abc").2 = some (GoError.other "database is locked") ∧
    (lcpserver.AddContent model.serverLookupDown (model.oneFile "/tmp/a" [7, 8, 9]) model.reqA
      [] []).trace =
      [Call.storageAdd "abc" [7, 8, 9], Call.contentGet "abc",
        Call.contentUpdate (recordOf model.pubA "")] ∧
    (lcpserver.AddContent model.serverLookupDown (model.oneFile "/tmp/a" [7, 8, 9]) model.reqA
      [] []).blobs = [("abc", [7, 8, 9])] ∧
    ¬ (∀ c ∈ (lcpserver.AddContent model.serverLookupDown (model.oneFile "/tmp/a" [7, 8, 9])
      model.reqA [] []).trace, c.isWrite = false) := by
  decide

open lcpserver in
/-- C2, amended: when the lookup fails with an error other than NotFound, the
blob write has already been made (the store call before the lookup is the
`Storage().Add` of the file, and the blob store is in the state that write
left), `Add` is not called on the catalog and the status is not 201. -/
theorem AddContent_lookup_error_after_blob {β γ : Type} (server : IServer β γ)
    (fs : String → Except String (List Nat)) (publication : LcpPublication)
    (contentID : String) (file : List Nat) (blobs : β) (catalog : γ) (e : GoError)
    (hid : contentID ≠ "") (hopen : fs publication.Output = .ok file)
    (hblob : (server.StorageAdd blobs contentID file).2 = none)
    (hget : (server.ContentGet catalog contentID).2 = some e)
    (he : e ≠ GoError.gormErrRecordNotFound) :
    (AddContent server fs { body := .ok publication, content_id := contentID }
      blobs catalog).trace.take 2 =
      [Call.storageAdd contentID file, Call.contentGet contentID] ∧
    (AddContent server fs { body := .ok publication, content_id := contentID }
      blobs catalog).blobs = (server.StorageAdd blobs contentID file).1 ∧
    (∀ c : Content, Call.contentAdd c ∉
      (AddContent server fs { body := .ok publication, content_id := contentID }
        blobs catalog).trace) ∧
    (AddContent server fs { body := .ok publication, content_id := contentID }
      blobs catalog).resp.status ≠ some StatusCreated := by
  rcases hsa : server.StorageAdd blobs contentID file with ⟨blobs1, e1⟩
  rw [hsa] at hblob
  simp only at hblob
  subst hblob
  rcases hg : server.ContentGet catalog contentID with ⟨content, err⟩
  rw [hg] at hget
  simp only at hget
  subst hget
  rw [AddContent_update_path server fs publication contentID file blobs blobs1 catalog
    content (some e) hid hopen hsa hg (by simpa using he)]
  refine ⟨rfl, rfl, ?_, ?_⟩
  · intro c hc
    simp at hc
  · cases (server.ContentUpdate catalog (recordOf publication content.Id)).2 <;>
      simp [api.Error, ResponseWriter.WriteHeader, ResponseWriter.Write, ResponseWriter.new,
        StatusCreated, StatusOK, StatusInternalServerError]

/-- Witness for the amended C2 on the catalog whose lookups fail. -/
theorem AddContent_lookup_error_after_blob_witness :
    (lcpserver.AddContent model.serverLookupDown (model.oneFile "/tmp/a" [7, 8, 9])
      { body := .ok model.pubA, content_id := "abc" } [] []).trace.take 2 =
      [Call.storageAdd "abc" [7, 8, 9], Call.contentGet "abc"] ∧
    (lcpserver.AddContent model.serverLookupDown (model.oneFile "/tmp/a" [7, 8, 9])
      { body := .ok model.pubA, content_id := "abc" } [] []).blobs =
      (model.serverLookupDown.StorageAdd [] "abc" [7, 8, 9]).1 ∧
    (∀ c : Content, Call.contentAdd c ∉
      (lcpserver.AddContent model.serverLookupDown (model.oneFile "/tmp/a" [7, 8, 9])
        { body := .ok model.pubA, content_id := "abc" } [] []).trace) ∧
    (lcpserver.AddContent model.serverLookupDown (model.oneFile "/tmp/a" [7, 8, 9])
      { body := .ok model.pubA, content_id := "abc" } [] []).resp.status ≠ some StatusCreated :=
  AddContent_lookup_error_after_blob model.serverLookupDown (model.oneFile "/tmp/a" [7, 8, 9])
    model.pubA "abc" [7, 8, 9] [] [] (GoError.other "database is locked")
    (by decide) rfl rfl rfl (by decide)

open lcpserver in
/-- C3: when the blob write `Storage().Add(id, file)` fails, the handler
answers with an error status (400), its only store call is that blob write, so
neither `Add` nor `Update` is called on the catalog, and the catalog state is
the one before the call; an id without a record before has none afterwards. -/
theorem AddContent_blob_failure_leaves_catalog {β γ : Type} (server : IServer β γ)
    (fs : String → Except String (List Nat)) (publication : LcpPublication)
    (contentID : String) (file : List Nat) (blobs : β) (catalog : γ) (e : GoError)
    (hid : contentID ≠ "") (hopen : fs publication.Output = .ok file)
    (hblob : (server.StorageAdd blobs contentID file).2 = some e) :
    (AddContent server fs { body := .ok publication, content_id := contentID }
      blobs catalog).resp.status = some StatusBadRequest ∧
    (AddContent server fs { body := .ok publication, content_id := contentID }
      blobs catalog).trace = [Call.storageAdd contentID file] ∧
    (∀ c ∈ (AddContent server fs { body := .ok publication, content_id := contentID }
      blobs catalog).trace, c.isCatalogWrite = false) ∧
    (AddContent server fs { body := .ok publication, content_id := contentID }
      blobs catalog).catalog = catalog ∧
    ((server.ContentGet catalog contentID).2 = some GoError.gormErrRecordNotFound →
      (server.ContentGet (AddContent server fs
        { body := .ok publication, content_id := contentID } blobs catalog).catalog
        contentID).2 = some GoError.gormErrRecordNotFound) := by
  rcases hsa : server.StorageAdd blobs contentID file with ⟨blobs1, e1⟩
  rw [hsa] at hblob
  simp only at hblob
  subst hblob
  simp [AddContent, hid, hopen, hsa, api.Error, ResponseWriter.WriteHeader,
    ResponseWriter.Write, ResponseWriter.new, Call.isCatalogWrite]

/-- Witness for C3 on a blob store that refuses the write. -/
theorem AddContent_blob_failure_leaves_catalog_witness :
    ("abc" : String) ≠ "" ∧
    model.oneFile "/tmp/a" [7, 8, 9] model.pubA.Output = .ok [7, 8, 9] ∧
    (model.serverBlobDown.StorageAdd [] "abc" [7, 8, 9]).2 = some (GoError.other "disk full") ∧
    (lcpserver.AddContent model.serverBlobDown (model.oneFile "/tmp/a" [7, 8, 9])
      { body := .ok model.pubA, content_id := "abc" } [] []).resp.status =
      some StatusBadRequest ∧
    (lcpserver.AddContent model.serverBlobDown (model.oneFile "/tmp/a" [7, 8, 9])
      { body := .ok model.pubA, content_id := "abc" } [] []).catalog = [] :=
  have h := AddContent_blob_failure_leaves_catalog model.serverBlobDown
    (model.oneFile "/tmp/a" [7, 8, 9]) model.pubA "abc" [7, 8, 9] [] []
    (GoError.other "disk full") (by decide) rfl rfl
  ⟨by decide, rfl, rfl, h.1, h.2.2.2.1⟩

open lcpserver in
/-- C4: every record `AddContent` passes to the catalog, to `Add` or to
`Update`, has its key, location, length and checksum given by the payload
alone, whatever the stores hold: the key is the payload's content key, the
location its disposition or "", the length its size or -1, the checksum its
checksum or "". -/
theorem AddContent_record_from_payload {β γ : Type} (server : IServer β γ)
    (fs : String → Except String (List Nat)) (req : AddContentRequest)
    (blobs : β) (catalog : γ) (c : Content)
    (hc : Call.contentAdd c ∈ (AddContent server fs req blobs catalog).trace ∨
      Call.contentUpdate c ∈ (AddContent server fs req blobs catalog).trace) :
    ∃ publication : LcpPublication, req.body = .ok publication ∧
      c.EncryptionKey = publication.ContentKey ∧
      c.Location = (match publication.ContentDisposition with | some d => d | none => "") ∧
      c.Length = (match publication.Size with | some n => n | none => -1) ∧
      c.Sha256 = (match publication.Checksum with | some s => s | none => "") := by
  rcases req with ⟨body, contentID⟩
  rcases body with err | publication
  · simp [AddContent] at hc
  refine ⟨publication, rfl, ?_⟩
  by_cases hid : contentID = ""
  · simp [AddContent, hid] at hc
  rcases hopen : fs publication.Output with err | file
  · simp [AddContent, hid, hopen] at hc
  rcases hsa : server.StorageAdd blobs contentID file with ⟨blobs1, _ | e1⟩
  swap
  · simp [AddContent, hid, hopen, hsa] at hc
  rcases hget : server.ContentGet catalog contentID with ⟨content, err⟩
  by_cases herr : err = some GoError.gormErrRecordNotFound
  · subst herr
    rw [AddContent_insert_path server fs publication contentID file blobs blobs1 catalog
      content hid hopen hsa hget] at hc
    have h : c = recordOf publication contentID := by simpa using hc
    subst h
    rcases publication with ⟨key, output, _ | d, _ | n, _ | s⟩ <;> simp [recordOf]
  · rw [AddContent_update_path server fs publication contentID file blobs blobs1 catalog
      content err hid hopen hsa hget herr] at hc
    have h : c = recordOf publication content.Id := by simpa using hc
    subst h
    rcases publication with ⟨key, output, _ | d, _ | n, _ | s⟩ <;> simp [recordOf]

/-- Witness for C4: the update of the record `abc` with the payload `pubB`,
which supplies neither a disposition nor a size. -/
theorem AddContent_record_from_payload_witness :
    Call.contentUpdate (recordOf model.pubB "abc") ∈
      (lcpserver.AddContent model.server (model.oneFile "/tmp/b" [4])
        { body := .ok model.pubB, content_id := "abc" } [] model.catalogAbc).trace ∧
    (recordOf model.pubB "abc").EncryptionKey = [5] ∧
    (recordOf model.pubB "abc").Location = "" ∧
    (recordOf model.pubB "abc").Length = -1 ∧
    (recordOf model.pubB "abc").Sha256 = "beef" := by
  have hmem : Call.contentUpdate (recordOf model.pubB "abc") ∈
      (lcpserver.AddContent model.server (model.oneFile "/tmp/b" [4])
        { body := .ok model.pubB, content_id := "abc" } [] model.catalogAbc).trace := by
    decide
  obtain ⟨publication, hp, h1, h2, h3, h4⟩ :=
    AddContent_record_from_payload model.server (model.oneFile "/tmp/b" [4])
      { body := .ok model.pubB, content_id := "abc" } [] model.catalogAbc
      (recordOf model.pubB "abc") (Or.inr hmem)
  have hp2 : publication = model.pubB := by
    simp only [Except.ok.injEq] at hp
    exact hp.symm
  subst hp2
  exact ⟨hmem, h1, h2, h3, h4⟩

open lcpserver in
/-- C5, refuted as stated: with the record present in the catalog and no blob
under the id, `GetContent` answers 404, not 500. -/
theorem GetContent_missing_blob_is_404 :
    (model.server.ContentGet model.catalogAbc "abc").2 = none ∧
    model.server.StorageGet [] "abc" = .error GoError.storageErrNotFound ∧
    (GetContent model.server "abc" [] model.catalogAbc).resp.status = some StatusNotFound ∧
    (GetContent model.server "abc" [] model.catalogAbc).resp.status ≠
      some StatusInternalServerError :=
  ⟨rfl, rfl, by decide, by decide⟩

open lcpserver in
/-- C5, amended: when the catalog lookup succeeds and the blob store fails, the
handler answers 404 if the blob store's error is NotFound and 500 for any
other error; metadata without a blob is reported as not found. -/
theorem GetContent_blob_error_status {β γ : Type} (server : IServer β γ)
    (contentID : String) (blobs : β) (catalog : γ) (e : GoError)
    (hcat : (server.ContentGet catalog contentID).2 = none)
    (hblob : server.StorageGet blobs contentID = .error e) :
    (GetContent server contentID blobs catalog).resp.status =
      some (if e = GoError.storageErrNotFound then StatusNotFound
        else StatusInternalServerError) ∧
    (GetContent server contentID blobs catalog).trace =
      [Call.contentGet contentID, Call.storageGet contentID] := by
  rcases hget : server.ContentGet catalog contentID with ⟨content, err⟩
  rw [hget] at hcat
  simp only at hcat
  subst hcat
  by_cases he : e = GoError.storageErrNotFound <;>
    simp [GetContent, hget, hblob, he, api.Error, ResponseWriter.WriteHeader,
      ResponseWriter.Write, ResponseWriter.new]

/-- Witness for the amended C5: the record `abc` without its blob. -/
theorem GetContent_blob_error_status_witness :
    (model.server.ContentGet model.catalogAbc "abc").2 = none ∧
    model.server.StorageGet [] "abc" = .error GoError.storageErrNotFound ∧
    (lcpserver.GetContent model.server "abc" [] model.catalogAbc).resp.status =
      some StatusNotFound :=
  ⟨rfl, rfl,
    (GetContent_blob_error_status model.server "abc" [] model.catalogAbc
      GoError.storageErrNotFound rfl rfl).1⟩

/-! ## Two registrations on the reference stores -/

/-- An id without rows is not found by the lookup. -/
theorem find_none_of_rowsOf_nil (rows : model.ContentCatalog) (id : String)
    (h : model.rowsOf rows id = []) : rows.find? (fun r => r.Id == id) = none := by
  induction rows with
  | nil => rfl
  | cons r rs ih =>
    by_cases hr : r.Id = id
    · simp [model.rowsOf, List.filter_cons, hr] at h
    · have h2 : model.rowsOf rs id = [] := by
        simpa [model.rowsOf, List.filter_cons, hr] using h
      simp [List.find?_cons, hr, ih h2]

/-- An id without rows is not matched by any row. -/
theorem any_false_of_rowsOf_nil (rows : model.ContentCatalog) (id : String)
    (h : model.rowsOf rows id = []) : rows.any (fun r => r.Id == id) = false := by
  induction rows with
  | nil => rfl
  | cons r rs ih =>
    by_cases hr : r.Id = id
    · simp [model.rowsOf, List.filter_cons, hr] at h
    · have h2 : model.rowsOf rs id = [] := by
        simpa [model.rowsOf, List.filter_cons, hr] using h
      simp [hr, ih h2]

/-- Replacing the rows of an id leaves the rows of a catalog without that id
as they are, so the id still has no rows. -/
theorem rowsOf_map_of_rowsOf_nil (rows : model.ContentCatalog) (id : String) (c : Content)
    (h : model.rowsOf rows id = []) :
    model.rowsOf (rows.map (fun r => if r.Id == id then c else r)) id = [] := by
  induction rows with
  | nil => rfl
  | cons r rs ih =>
    by_cases hr : r.Id = id
    · simp [model.rowsOf, List.filter_cons, hr] at h
    · have h2 : model.rowsOf rs id = [] := by
        simpa [model.rowsOf, List.filter_cons, hr] using h
      simpa [model.rowsOf, List.filter_cons, hr] using ih h2

/-- A blob written under an id is the blob found under that id. -/
theorem blobLookup_blobAdd (b : model.BlobStore) (id : String) (file : List Nat) :
    model.blobLookup (model.blobAdd b id file).1 id = some file := by
  have h : (b.filter (fun e => e.1 != id)).find? (fun e => e.1 == id) = none := by
    induction b with
    | nil => rfl
    | cons e es ih =>
      by_cases he : e.1 = id
      · simp [List.filter_cons, he, ih]
      · simp [List.filter_cons, he, ih]
  simp [model.blobLookup, model.blobAdd, List.find?_append, h]

/-- C6: on the reference stores (catalog `Add` fails on an existing id,
`Update` on a missing id, blob `Add` overwrites), for an id without a record,
`AddContent(id, A)` followed by `AddContent(id, B)` answers 201 and then 200,
leaves exactly one record for the id, with the key, location, length and
checksum of `B`, and leaves the bytes of `B` as the blob of the id. -/
theorem AddContent_twice_is_upsert (id : String) (A B : LcpPublication)
    (bytesA bytesB : List Nat) (fsA fsB : String → Except String (List Nat))
    (blobs : model.BlobStore) (catalog : model.ContentCatalog)
    (hid : id ≠ "") (hA : fsA A.Output = .ok bytesA) (hB : fsB B.Output = .ok bytesB)
    (hfresh : model.rowsOf catalog id = []) :
    (registerTwice id A B fsA fsB blobs catalog).1.resp.status = some StatusCreated ∧
    (registerTwice id A B fsA fsB blobs catalog).2.resp.status = some StatusOK ∧
    model.rowsOf (registerTwice id A B fsA fsB blobs catalog).2.catalog id =
      [{ Id := id
         EncryptionKey := B.ContentKey
         Location := (match B.ContentDisposition with | some d => d | none => "")
         Length := (match B.Size with | some n => n | none => -1)
         Sha256 := (match B.Checksum with | some s => s | none => "") }] ∧
    model.blobLookup (registerTwice id A B fsA fsB blobs catalog).2.blobs id = some bytesB := by
  have hget1 : model.server.ContentGet catalog id =
      (Content.zero, some GoError.gormErrRecordNotFound) := by
    simp [model.server, model.catalogGet, find_none_of_rowsOf_nil catalog id hfresh]
  have hadd : model.server.ContentAdd catalog (recordOf A id) =
      (catalog ++ [recordOf A id], none) := by
    have h := any_false_of_rowsOf_nil catalog id hfresh
    simp [model.server, model.catalogAdd, recordOf, h]
  have h1 := AddContent_insert_path model.server fsA A id bytesA blobs
    (model.blobAdd blobs id bytesA).1 catalog Content.zero hid hA rfl hget1
  rw [hadd] at h1
  have hget2 : model.server.ContentGet (catalog ++ [recordOf A id]) id =
      (recordOf A id, none) := by
    simp [model.server, model.catalogGet, List.find?_append,
      find_none_of_rowsOf_nil catalog id hfresh, recordOf]
  have hupd : model.server.ContentUpdate (catalog ++ [recordOf A id]) (recordOf B id) =
      ((catalog ++ [recordOf A id]).map (fun r => if r.Id == id then recordOf B id else r),
        none) := by
    simp [model.server, model.catalogUpdate, recordOf]
  have h2 := AddContent_update_path model.server fsB B id bytesB
    (model.blobAdd blobs id bytesA).1
    (model.blobAdd (model.blobAdd blobs id bytesA).1 id bytesB).1
    (catalog ++ [recordOf A id]) (recordOf A id) none hid hB rfl hget2 (by simp)
  have hidA : (recordOf A id).Id = id := rfl
  rw [hidA, hupd] at h2
  have hrows := rowsOf_map_of_rowsOf_nil catalog id (recordOf B id) hfresh
  have hfinal : model.rowsOf
      ((catalog ++ [recordOf A id]).map (fun r => if r.Id == id then recordOf B id else r)) id =
      [recordOf B id] := by
    simp only [model.rowsOf] at hrows
    rw [model.rowsOf, List.map_append, List.filter_append, hrows]
    simp [recordOf]
  simp only [registerTwice, h1, h2]
  refine ⟨rfl, rfl, ?_, blobLookup_blobAdd _ id bytesB⟩
  rcases B with ⟨key, output, _ | d, _ | n, _ | s⟩ <;> exact hfinal

/-- Witness for C6: `pubA` and then `pubB` registered under the fresh id `abc`
next to a record for another id. -/
theorem AddContent_twice_is_upsert_witness :
    ("abc" : String) ≠ "" ∧
    model.oneFile "/tmp/a" [7, 8, 9] model.pubA.Output = .ok [7, 8, 9] ∧
    model.oneFile "/tmp/b" [4] model.pubB.Output = .ok [4] ∧
    model.rowsOf [recordOf model.pubA "xyz"] "abc" = [] ∧
    (registerTwice "abc" model.pubA model.pubB (model.oneFile "/tmp/a" [7, 8, 9])
      (model.oneFile "/tmp/b" [4]) [] [recordOf model.pubA "xyz"]).1.resp.status =
      some StatusCreated ∧
    (registerTwice "abc" model.pubA model.pubB (model.oneFile "/tmp/a" [7, 8, 9])
      (model.oneFile "/tmp/b" [4]) [] [recordOf model.pubA "xyz"]).2.resp.status =
      some StatusOK ∧
    model.blobLookup (registerTwice "abc" model.pubA model.pubB
      (model.oneFile "/tmp/a" [7, 8, 9]) (model.oneFile "/tmp/b" [4]) []
      [recordOf model.pubA "xyz"]).2.blobs "abc" = some [4] :=
  have h := AddContent_twice_is_upsert "abc" model.pubA model.pubB [7, 8, 9] [4]
    (model.oneFile "/tmp/a" [7, 8, 9]) (model.oneFile "/tmp/b" [4]) []
    [recordOf model.pubA "xyz"] (by decide) rfl rfl (by decide)
  ⟨by decide, rfl, rfl, by decide, h.1, h.2.1, h.2.2.2⟩

/-! ## Theorems on `GetPublications` and `UpdatePublication` -/

open lutserver in
/-- C7, refuted as stated: the page parameter `0` parses to the integer 0 and
is not rejected; the handler calls `List` with page index 0 and answers 200. -/
theorem GetPublications_page_zero_is_listed :
    strconv.ParseInt (model.query "0" "1" "page") 32 = (0, none) ∧
    (GetPublications model.lutServer model.encOk (model.query "0" "1") model.threePubs).trace =
      [Call.publicationList 1 0] ∧
    (GetPublications model.lutServer model.encOk (model.query "0" "1")
      model.threePubs).resp.status = some StatusOK :=
  ⟨rfl, by decide, by decide⟩

open lutserver in
/-- C7, amended: a page parameter that parses to a negative integer is
rejected with status 400 and `List` is never called; a page parameter that
parses to 0 is not rejected: once `per_page` is read, `List` is called with
page index 0, the index of the first page. -/
theorem GetPublications_negative_page_rejected {π : Type} (server : IServer π)
    (enc : Chunk → Option String) (form : String → String) (store : π) (p : Int)
    (hpage : form "page" ≠ "") (hparse : strconv.ParseInt (form "page") 32 = (p, none)) :
    (p < 0 →
      (GetPublications server enc form store).resp.status = some StatusBadRequest ∧
      (GetPublications server enc form store).trace = []) ∧
    (p = 0 → ∀ perPage : Int,
      (if form "per_page" ≠ "" then strconv.ParseInt (form "per_page") 32 else (30, none)) =
        (perPage, none) →
      (GetPublications server enc form store).trace = [Call.publicationList perPage 0]) := by
  refine ⟨?_, ?_⟩
  · intro hp
    have h1 : ¬ p > 0 := by omega
    simp only [GetPublications, hpage, hparse, ne_eq, not_false_eq_true, if_true]
    split
    · simp [api.Error, ResponseWriter.WriteHeader, ResponseWriter.Write, ResponseWriter.new]
    · simp [h1, hp, api.Error, ResponseWriter.WriteHeader, ResponseWriter.Write,
        ResponseWriter.new]
  · intro hp perPage hper
    subst hp
    simp only [GetPublications, hpage, hparse, ne_eq, not_false_eq_true, if_true]
    simp only [ne_eq] at hper
    rw [hper]
    simp only [gt_iff_lt, lt_self_iff_false, if_false]
    split <;> [skip; split] <;> rfl

/-- Witness for the amended C7: the page parameter `-1`. -/
theorem GetPublications_negative_page_rejected_witness :
    model.query "-1" "1" "page" ≠ "" ∧
    strconv.ParseInt (model.query "-1" "1" "page") 32 = (-1, none) ∧
    (lutserver.GetPublications model.lutServer model.encOk (model.query "-1" "1")
      model.threePubs).resp.status = some StatusBadRequest ∧
    (lutserver.GetPublications model.lutServer model.encOk (model.query "-1" "1")
      model.threePubs).trace = [] :=
  have h := (GetPublications_negative_page_rejected model.lutServer model.encOk
    (model.query "-1" "1") model.threePubs (-1) (by decide) rfl).1 (by decide)
  ⟨by decide, rfl, h.1, h.2⟩

open lutserver in
/-- C8, the handler at page 3 of three publications listed one per page: the
returned list is not empty, yet the `Link` header of the response is the
`previous` link alone; the `next` link set first has been replaced. -/
theorem GetPublications_page_three_has_no_next_link :
    (GetPublications model.lutServer model.encOk (model.query "3" "1")
      model.threePubs).resp.status = some StatusOK ∧
    (GetPublications model.lutServer model.encOk (model.query "3" "1")
      model.threePubs).resp.body =
      [Chunk.publications [{ ID := 3, Title := "C", Status := "ok", MasterFilename := "c.epub" }]] ∧
    (GetPublications model.lutServer model.encOk (model.query "3" "1")
      model.threePubs).resp.HeaderGet "Link" =
      some "</publications/?page=1>; rel=\"previous\"; title=\"previous\"" ∧
    hasLinkRel (GetPublications model.lutServer model.encOk (model.query "3" "1")
      model.threePubs).resp "next" = false := by
  decide

open lutserver in
/-- C9, the handler at page 2 of three publications listed one per page: the
requested page is greater than 1, yet the response carries no `previous` link;
its `Link` header is the `next` link. -/
theorem GetPublications_page_two_has_no_previous_link :
    strconv.ParseInt (model.query "2" "1" "page") 32 = (2, none) ∧
    (GetPublications model.lutServer model.encOk (model.query "2" "1")
      model.threePubs).resp.status = some StatusOK ∧
    (GetPublications model.lutServer model.encOk (model.query "2" "1")
      model.threePubs).resp.HeaderGet "Link" =
      some "</publications/?page=2>; rel=\"next\"; title=\"next\"" ∧
    hasLinkRel (GetPublications model.lutServer model.encOk (model.query "2" "1")
      model.threePubs).resp "previous" = false :=
  ⟨rfl, by decide, by decide, by decide⟩

open lutserver in
/-- C10: for an integer id and a valid payload, `UpdatePublication` answers 404
without calling `Update` when the store has no record for the id, and leaves
the store as it was; when a record is found it calls `Update` exactly once,
with a record that has the id and the status of the found record and the title
of the payload, whatever status the payload carries: the store it leaves is
the one that `Update` returned, and the status is 200 when that `Update`
succeeds and 500 when it fails; in every case it makes no call on the content
catalog or the blob store. -/
theorem UpdatePublication_replaces_title_only {π : Type} (server : IServer π)
    (vars_id : String) (id : Int) (pub : Publication) (store : π)
    (hid : strconv.Atoi vars_id = (id, none)) :
    (server.PublicationGet store id = .error GoError.gormErrRecordNotFound →
      (UpdatePublication server vars_id (.ok pub) store).resp.status = some StatusNotFound ∧
      (UpdatePublication server vars_id (.ok pub) store).trace = [Call.publicationGet id] ∧
      (UpdatePublication server vars_id (.ok pub) store).store = store) ∧
    (∀ foundPub : Publication, server.PublicationGet store id = .ok foundPub →
      ∃ updated : Publication,
        (UpdatePublication server vars_id (.ok pub) store).trace =
          [Call.publicationGet id, Call.publicationUpdate updated] ∧
        updated.ID = foundPub.ID ∧ updated.Status = foundPub.Status ∧
        updated.Title = pub.Title ∧
        (UpdatePublication server vars_id (.ok pub) store).store =
          (server.PublicationUpdate store updated).1 ∧
        (UpdatePublication server vars_id (.ok pub) store).resp.status =
          some (if (server.PublicationUpdate store updated).2 = none then StatusOK
            else StatusInternalServerError)) ∧
    (∀ c ∈ (UpdatePublication server vars_id (.ok pub) store).trace,
      c.isContentOrStorage = false) := by
  refine ⟨?_, ?_, ?_⟩
  · intro hget
    simp [UpdatePublication, hid, hget, api.Error, ResponseWriter.WriteHeader,
      ResponseWriter.Write, ResponseWriter.new]
  · intro foundPub hget
    refine ⟨⟨foundPub.ID, pub.Title, foundPub.Status, ""⟩, ?_, rfl, rfl, rfl, ?_, ?_⟩
    · simp only [UpdatePublication, hid, hget]
      split <;> rfl
    · simp only [UpdatePublication, hid, hget]
      split <;> rename_i h <;> simp [h]
    · simp only [UpdatePublication, hid, hget]
      split <;> rename_i h <;>
        simp [h, api.Error, ResponseWriter.WriteHeader, ResponseWriter.Write,
          ResponseWriter.new]
  · intro c hc
    simp only [UpdatePublication, hid] at hc
    split at hc
    · split at hc <;> simp at hc <;> subst hc <;> rfl
    · split at hc <;> simp at hc <;> rcases hc with hc | hc <;> subst hc <;> rfl

/-- Witness for C10: a new title and another status sent for publication 2 of
three; the row of publication 2 gets the new title and keeps its status, and
the answer is 200. -/
theorem UpdatePublication_replaces_title_only_witness :
    strconv.Atoi "2" = (2, none) ∧
    model.lutServer.PublicationGet model.threePubs 2 =
      .ok { ID := 2, Title := "B", Status := "ok", MasterFilename := "b.epub" } ∧
    (∃ updated : Publication,
      (lutserver.UpdatePublication model.lutServer "2"
        (.ok { ID := 7, Title := "New", Status := "draft", MasterFilename := "" })
        model.threePubs).trace = [Call.publicationGet 2, Call.publicationUpdate updated] ∧
      updated.ID = 2 ∧ updated.Status = "ok" ∧ updated.Title = "New" ∧
      (lutserver.UpdatePublication model.lutServer "2"
        (.ok { ID := 7, Title := "New", Status := "draft", MasterFilename := "" })
        model.threePubs).store = (model.lutServer.PublicationUpdate model.threePubs updated).1 ∧
      (lutserver.UpdatePublication model.lutServer "2"
        (.ok { ID := 7, Title := "New", Status := "draft", MasterFilename := "" })
        model.threePubs).resp.status =
        some (if (model.lutServer.PublicationUpdate model.threePubs updated).2 = none
          then StatusOK else StatusInternalServerError)) ∧
    (lutserver.UpdatePublication model.lutServer "2"
      (.ok { ID := 7, Title := "New", Status := "draft", MasterFilename := "" })
      model.threePubs).store.map (fun r => (r.ID, r.Title, r.Status)) =
      [(1, "A", "ok"), (2, "New", "ok"), (3, "C", "ok")] ∧
    (lutserver.UpdatePublication model.lutServer "2"
      (.ok { ID := 7, Title := "New", Status := "draft", MasterFilename := "" })
      model.threePubs).resp.status = some StatusOK :=
  ⟨rfl, rfl,
    (UpdatePublication_replaces_title_only model.lutServer "2" 2
      { ID := 7, Title := "New", Status := "draft", MasterFilename := "" } model.threePubs
      rfl).2.1 { ID := 2, Title := "B", Status := "ok", MasterFilename := "b.epub" } rfl,
    by decide, by decide⟩

/-! ## Theorems on a malformed publication id -/

open lutserver in
/-- C11, the three handlers on the url id `abc`, which is not an integer, over
any publication store: `GetPublication` writes the status 400 and then, having
not returned, calls the store's `Get` with the id 0 that `Atoi` handed back;
`UpdatePublication` and `DeletePublication` answer 400 and call no store. -/
theorem GetPublication_malformed_id_reaches_store {π : Type} (server : IServer π)
    (enc : Chunk → Option String) (env : Env) (payload : Except String Publication)
    (store : π) :
    strconv.Atoi "abc" = (0, some "invalid syntax") ∧
    (GetPublication server enc "abc" store).resp.status = some StatusBadRequest ∧
    (GetPublication server enc "abc" store).trace = [Call.publicationGet 0] ∧
    (UpdatePublication server "abc" payload store).resp.status = some StatusBadRequest ∧
    (UpdatePublication server "abc" payload store).trace = [] ∧
    (DeletePublication server env "abc" store).resp.status = some StatusBadRequest ∧
    (DeletePublication server env "abc" store).trace = [] := by
  have hatoi : strconv.Atoi "abc" = (0, some "invalid syntax") := by decide
  have hparse : strconv.ParseInt "abc" 64 = (0, some "invalid syntax") := hatoi
  refine ⟨hatoi, ?_, ?_, ?_, ?_, ?_, ?_⟩
  · simp only [GetPublication, hatoi]
    rcases server.PublicationGet store 0 with e | pub
    · by_cases he : e = GoError.gormErrRecordNotFound <;>
        simp [he, api.Error, ResponseWriter.WriteHeader, ResponseWriter.Write,
          ResponseWriter.new]
    · cases henc : enc (Chunk.publication pub) <;>
        simp [henc, api.Error, ResponseWriter.WriteHeader, ResponseWriter.Write,
          ResponseWriter.HeaderSet, ResponseWriter.new]
  · simp only [GetPublication, hatoi]
    rcases server.PublicationGet store 0 with e | pub
    · by_cases he : e = GoError.gormErrRecordNotFound <;> simp [he]
    · cases henc : enc (Chunk.publication pub) <;> simp [henc]
  · simp [UpdatePublication, hatoi, api.Error, ResponseWriter.WriteHeader,
      ResponseWriter.Write, ResponseWriter.new]
  · simp [UpdatePublication, hatoi]
  · simp [DeletePublication, hparse, api.Error, ResponseWriter.WriteHeader,
      ResponseWriter.Write, ResponseWriter.new]
  · simp [DeletePublication, hparse]

end Readium
